import Mathlib

/-!
# To-Do-Simple-Backend: the request handlers of `server.js`

A shallow embedding of the Express handlers of `src/server.js` and the
properties of create, list, update and delete that follow from the code.

Modelling conventions.

* JavaScript values that come from `JSON.parse` are values of `JVal`; the
  JavaScript `undefined` is `none` in `Option JVal`.  A number in a `JVal` is an
  integer-valued double (identifiers are integer timestamps); fractional numbers
  and the infinities do not occur in a `JVal`.  `parseInt` rounds its result to
  the nearest double, as the code does (`roundToDouble`).
* An object is its list of own properties in property order.  `JSON.parse`
  never yields two properties with the same key; where a statement depends on
  that, it says so through `uniqueKeys`.
* The backing file is described by what `fs.readFile` followed by
  `JSON.parse` yields on it (`FileState`).  `JSON.stringify` followed by
  `JSON.parse` is the identity on `JVal`, so a successful `writeDatabase d`
  leaves the file in state `FileState.json d`.
* The clock and the success of `fs.writeFile` are inputs of a request (`Env`).
* Every handler returns the response, the state of the file after the
  request, and the list of file accesses it made, in order (`Outcome`).
-/

namespace TodoBackend

/-! ## Values -/

/-- A value produced by `JSON.parse`. A number `num n` is the double of value `n`, an
integer that a double represents exactly. -/
inductive JVal where
  | null
  | bool (b : Bool)
  | num (n : Int)
  | str (s : String)
  | arr (xs : List JVal)
  | obj (kvs : List (String × JVal))

/-- The failure of a JavaScript evaluation step. -/
inductive JsError where
  | typeError
  | writeError

/-- JavaScript `ToBoolean` on a value that may be `undefined`. -/
def truthy : Option JVal → Bool
  | none => false
  | some .null => false
  | some (.bool b) => b
  | some (.num n) => n != 0
  | some (.str s) => s != ""
  | some (.arr _) => true
  | some (.obj _) => true

/-- Own property lookup in an object's property list: the first entry with the key. -/
def lookupKey : List (String × JVal) → String → Option JVal
  | [], _ => none
  | (k1, v) :: rest, k => if k1 = k then some v else lookupKey rest k

/-- The property read `v.k` for the keys this program reads (`text`, `priority`,
`category`, `completed`, `todos`, `id`): a `TypeError` on `null`, the own
property on an object, and `undefined` on a boolean, number, string or array,
none of which has a property of these names. -/
def getProp : JVal → String → Except JsError (Option JVal)
  | .null, _ => .error .typeError
  | .obj kvs, k => .ok (lookupKey kvs k)
  | _, _ => .ok none

/-- Defining a property on an object (`CreateDataProperty`): an existing key keeps
its position and takes the new value, a new key is appended. -/
def setProp : List (String × JVal) → String → JVal → List (String × JVal)
  | [], k, v => [(k, v)]
  | (k1, v1) :: rest, k, v =>
    if k1 = k then (k, v) :: rest else (k1, v1) :: setProp rest k v

/-- The own enumerable properties an object spread `...v` copies: the properties
of an object, the indexed elements of an array, the indexed characters of a
string, and nothing for `null`, a boolean or a number. -/
def ownProps : JVal → List (String × JVal)
  | .obj kvs => kvs
  | .arr xs => xs.enum.map (fun p => (toString p.1, p.2))
  | .str s => s.toList.enum.map (fun p => (toString p.1, JVal.str (String.singleton p.2)))
  | _ => []

/-- The spread `...src` inside an object literal whose properties so far are `target`. -/
def spreadInto (target : List (String × JVal)) (src : JVal) : List (String × JVal) :=
  (ownProps src).foldl (fun acc p => setProp acc p.1 p.2) target

/-- The JavaScript `a || d` for a default `d` that is a JSON value. -/
def orDefault (a : Option JVal) (d : JVal) : JVal :=
  match a with
  | some v => if truthy (some v) then v else d
  | none => d

/-- Keys of an object are pairwise distinct, as in every object built by `JSON.parse`. -/
def uniqueKeys (kvs : List (String × JVal)) : Prop :=
  (kvs.map Prod.fst).Nodup

instance (kvs : List (String × JVal)) : Decidable (uniqueKeys kvs) := by
  unfold uniqueKeys; infer_instance

/-- A todo record as stored: a JSON object. -/
def isRecord : JVal → Prop
  | .obj kvs => uniqueKeys kvs
  | _ => False

instance (v : JVal) : Decidable (isRecord v) := by
  cases v <;> unfold isRecord <;> infer_instance

/-! ## `parseInt` -/

/-- JavaScript `WhiteSpace` and `LineTerminator` code points, which `parseInt` skips
at the start of its argument. -/
def isJsWhiteSpace (c : Char) : Bool :=
  let n := c.toNat
  n = 0x09 || n = 0x0A || n = 0x0B || n = 0x0C || n = 0x0D || n = 0x20 || n = 0xA0 ||
  n = 0x1680 || (0x2000 ≤ n && n ≤ 0x200A) || n = 0x2028 || n = 0x2029 || n = 0x202F ||
  n = 0x205F || n = 0x3000 || n = 0xFEFF

/-- The value of a character as a digit of the given radix (10 or 16), if it is one. -/
def digitValue (radix : Nat) (c : Char) : Option Nat :=
  let n := c.toNat
  let d :=
    if 48 ≤ n ∧ n ≤ 57 then some (n - 48)
    else if 97 ≤ n ∧ n ≤ 122 then some (n - 97 + 10)
    else if 65 ≤ n ∧ n ≤ 90 then some (n - 65 + 10)
    else none
  match d with
  | some v => if v < radix then some v else none
  | none => none

/-- The longest prefix of digits of the radix, as digit values. -/
def leadingDigits (radix : Nat) : List Char → List Nat
  | [] => []
  | c :: rest =>
    match digitValue radix c with
    | some d => d :: leadingDigits radix rest
    | none => []

/-- A JavaScript number as `parseInt` returns it: NaN, an infinity, or a finite double,
which for `parseInt` is an integer. -/
inductive JsNumber where
  | nan
  | infinity (negative : Bool)
  | finite (n : Int)
  deriving DecidableEq

/-- The number of low bits a natural number has beyond the 53 bits of a double's
significand: how often it is halved until it is below `2 ^ 53`. The first argument
bounds the number of halvings and is the number itself wherever this is used. -/
def excessBits : Nat → Nat → Nat
  | 0, _ => 0
  | fuel + 1, m => if m < 9007199254740992 then 0 else excessBits fuel (m / 2) + 1

/-- The double nearest to a natural number, ties to the even significand (IEEE 754
round-to-nearest-even); `none` when the rounded value is `2 ^ 1024` or more, which is
the double `Infinity`. -/
def roundToDouble (m : Nat) : Option Nat :=
  let e := excessBits m m
  let q := m >>> e
  let r := m - (q <<< e)
  let half := 1 <<< (e - 1)
  let q1 := if e ≠ 0 ∧ (half < r ∨ (r = half ∧ q % 2 = 1)) then q + 1 else q
  if excessBits (q1 <<< e) (q1 <<< e) ≤ 971 then some (q1 <<< e) else none

/-- JavaScript `parseInt(s)` with no radix argument: leading white space is skipped,
then an optional sign and an optional `0x` or `0X`, then the longest run of digits is
read; no digit gives NaN, and the integer read is rounded to the nearest double. -/
def parseInt (s : String) : JsNumber :=
  let cs := s.toList.dropWhile isJsWhiteSpace
  let neg : Bool := match cs with
    | '-' :: _ => true
    | _ => false
  let cs1 := match cs with
    | '-' :: r => r
    | '+' :: r => r
    | _ => cs
  let radix : Nat := match cs1 with
    | '0' :: 'x' :: _ => 16
    | '0' :: 'X' :: _ => 16
    | _ => 10
  let cs2 := match cs1 with
    | '0' :: 'x' :: r => r
    | '0' :: 'X' :: r => r
    | _ => cs1
  match leadingDigits radix cs2 with
  | [] => .nan
  | ds =>
    match roundToDouble (ds.foldl (fun acc d => acc * radix + d) 0) with
    | some m => .finite (if neg then - (m : Int) else (m : Int))
    | none => .infinity neg

/-- The strict equality `v === p` of a value with a number returned by `parseInt`: NaN
equals nothing, and neither does an infinity, which no `JVal` is. -/
def strictEqNum (v : Option JVal) (p : JsNumber) : Bool :=
  match v, p with
  | some (.num m), .finite n => m == n
  | _, _ => false

/-! ## The server -/

/-- The constant `PRIORITIES`. -/
def PRIORITIES : List String := ["low", "medium", "high"]

/-- The constant `CATEGORIES`. -/
def CATEGORIES : List String := ["work", "personal", "shopping", "health"]

/-- The call `xs.includes(v)` on an array of strings. -/
def includes (xs : List String) (v : Option JVal) : Bool :=
  match v with
  | some (.str s) => xs.contains s
  | _ => false

/-- What `fs.readFile(DB_PATH, 'utf8')` followed by `JSON.parse` yields on the
backing file: the read is rejected (the file is missing or unreadable), the
text is not JSON, or a value. -/
inductive FileState where
  | unreadable
  | malformed
  | json (v : JVal)

/-- An access to the backing file. -/
inductive FileAccess where
  | read
  | write (data : JVal)

/-- The inputs of a request that come from the environment: `Date.now()`,
`new Date().toISOString()`, and whether `fs.writeFile` succeeds. -/
structure Env where
  nowMs : Int
  nowIso : String
  writeOk : Bool

/-- An HTTP response: the status and the JSON body (`none` when the argument of
`res.json` is `undefined`). -/
structure Response where
  status : Nat
  body : Option JVal

/-- The result of handling a request: the response sent by this program (`none`
when an exception leaves the handler chain), the state of the backing file
afterwards, and the file accesses made, in order. -/
structure Outcome where
  res : Option Response
  file : FileState
  log : List FileAccess

/-- The body `{ error: msg }`. -/
def errorBody (msg : String) : JVal :=
  .obj [("error", .str msg)]

/-- The function `readDatabase`: the parsed file, or `{ todos: [] }` when reading or
parsing throws. -/
def readDatabase : FileState → JVal
  | .json v => v
  | .unreadable => .obj [("todos", .arr [])]
  | .malformed => .obj [("todos", .arr [])]

/-- The function `writeDatabase`: `fs.writeFile` of `JSON.stringify(data, null, 2)`. It
yields the state of the file after a write that succeeds; a write that is rejected
throws and is taken to leave the file as it was. -/
def writeDatabase (env : Env) (data : JVal) : Except JsError FileState :=
  if env.writeOk then .ok (.json data) else .error .writeError

/-- The outcome of the middleware `validateTodo`. -/
inductive Validation where
  | next
  | respond (r : Response)
  | throws

/-- The middleware `validateTodo`. -/
def validateTodo (body : JVal) : Validation :=
  match getProp body "text", getProp body "priority", getProp body "category",
      getProp body "completed" with
  | .ok text, .ok priority, .ok category, .ok _ =>
    if !truthy text then
      .respond ⟨400, some (errorBody "Todo text is required")⟩
    else if truthy priority && !includes PRIORITIES priority then
      .respond ⟨400, some (errorBody
        ("Invalid priority. Must be one of: " ++ ", ".intercalate PRIORITIES))⟩
    else if truthy category && !includes CATEGORIES category then
      .respond ⟨400, some (errorBody
        ("Invalid category. Must be one of: " ++ ", ".intercalate CATEGORIES))⟩
    else .next
  | _, _, _, _ => .throws

/-- The array `db.todos` as the receiver of `push`, `findIndex` or `filter`: the call
throws a `TypeError` unless `db.todos` is an array. -/
def todosArray (db : JVal) : Except JsError (List JVal) :=
  match getProp db "todos" with
  | .ok (some (.arr ts)) => .ok ts
  | _ => .error .typeError

/-- The document `db` once its `todos` array holds `ts`. -/
def withTodos (db : JVal) (ts : List JVal) : JVal :=
  match db with
  | .obj kvs => .obj (setProp kvs "todos" (.arr ts))
  | other => other

/-- A property of an object literal as `JSON.stringify` keeps it: dropped when the
value is `undefined`. -/
def jsonProp (k : String) (v : Option JVal) : List (String × JVal) :=
  match v with
  | some x => [(k, x)]
  | none => []

/-- The object literal `newTodo` of the create handler. -/
def newTodo (env : Env) (body : JVal) : Except JsError JVal :=
  match getProp body "text", getProp body "completed", getProp body "priority",
      getProp body "category" with
  | .ok text, .ok completed, .ok priority, .ok category =>
    .ok (.obj ([("id", .num env.nowMs)] ++ jsonProp "text" text ++
      [("completed", orDefault completed (.bool false)),
       ("priority", orDefault priority (.str "medium")),
       ("category", orDefault category (.str "personal")),
       ("createdAt", .str env.nowIso)]))
  | _, _, _, _ => .error .typeError

/-- The callback test `todo.id === parseInt(req.params.id)`. -/
def idMatches (todo : JVal) (p : JsNumber) : Except JsError Bool :=
  match getProp todo "id" with
  | .ok v => .ok (strictEqNum v p)
  | .error e => .error e

/-- The call `db.todos.findIndex(todo => todo.id === p)`, counting from index `i`;
`none` is `-1`. -/
def findIndexFrom : List JVal → JsNumber → Nat → Except JsError (Option Nat)
  | [], _, _ => .ok none
  | t :: rest, p, i =>
    match idMatches t p with
    | .error e => .error e
    | .ok true => .ok (some i)
    | .ok false => findIndexFrom rest p (i + 1)

/-- The call `db.todos.filter(todo => todo.id !== p)`. -/
def filterTodos : List JVal → JsNumber → Except JsError (List JVal)
  | [], _ => .ok []
  | t :: rest, p =>
    match idMatches t p with
    | .error e => .error e
    | .ok m =>
      match filterTodos rest p with
      | .error e => .error e
      | .ok kept => .ok (if !m then t :: kept else kept)

/-- The object literal `{ ...db.todos[index], ...req.body, updatedAt: iso }`. -/
def mergeTodo (old : Option JVal) (body : JVal) (iso : String) : JVal :=
  let base : List (String × JVal) :=
    match old with
    | some o => spreadInto [] o
    | none => []
  .obj (setProp (spreadInto base body) "updatedAt" (.str iso))

/-- The handler of `GET /todos`. -/
def listTodos (file : FileState) : Outcome :=
  let db := readDatabase file
  match getProp db "todos" with
  | .ok v => ⟨some ⟨200, v⟩, file, [.read]⟩
  | .error _ => ⟨some ⟨500, some (errorBody "Failed to read todos")⟩, file, [.read]⟩

/-- The handler chain of `POST /todos`. -/
def createTodo (env : Env) (file : FileState) (body : JVal) : Outcome :=
  match validateTodo body with
  | .throws => ⟨none, file, []⟩
  | .respond r => ⟨some r, file, []⟩
  | .next =>
    let db := readDatabase file
    match newTodo env body, todosArray db with
    | .ok t, .ok ts =>
      let db1 := withTodos db (ts ++ [t])
      match writeDatabase env db1 with
      | .ok file1 => ⟨some ⟨201, some t⟩, file1, [.read, .write db1]⟩
      | .error _ =>
        ⟨some ⟨500, some (errorBody "Failed to add todo")⟩, file, [.read, .write db1]⟩
    | _, _ => ⟨some ⟨500, some (errorBody "Failed to add todo")⟩, file, [.read]⟩

/-- The handler chain of `PUT /todos/:id`. -/
def updateTodo (env : Env) (file : FileState) (pathId : String) (body : JVal) : Outcome :=
  match validateTodo body with
  | .throws => ⟨none, file, []⟩
  | .respond r => ⟨some r, file, []⟩
  | .next =>
    let db := readDatabase file
    match todosArray db with
    | .error _ => ⟨some ⟨500, some (errorBody "Failed to update todo")⟩, file, [.read]⟩
    | .ok ts =>
      match findIndexFrom ts (parseInt pathId) 0 with
      | .error _ => ⟨some ⟨500, some (errorBody "Failed to update todo")⟩, file, [.read]⟩
      | .ok none => ⟨some ⟨404, some (errorBody "Todo not found")⟩, file, [.read]⟩
      | .ok (some i) =>
        let merged := mergeTodo ts[i]? body env.nowIso
        let db1 := withTodos db (ts.set i merged)
        match writeDatabase env db1 with
        | .ok file1 => ⟨some ⟨200, some merged⟩, file1, [.read, .write db1]⟩
        | .error _ =>
          ⟨some ⟨500, some (errorBody "Failed to update todo")⟩, file, [.read, .write db1]⟩

/-- The handler of `DELETE /todos/:id`. -/
def deleteTodo (env : Env) (file : FileState) (pathId : String) : Outcome :=
  let db := readDatabase file
  match todosArray db with
  | .error _ => ⟨some ⟨500, some (errorBody "Failed to delete todo")⟩, file, [.read]⟩
  | .ok ts =>
    match filterTodos ts (parseInt pathId) with
    | .error _ => ⟨some ⟨500, some (errorBody "Failed to delete todo")⟩, file, [.read]⟩
    | .ok kept =>
      let db1 := withTodos db kept
      match writeDatabase env db1 with
      | .ok file1 =>
        ⟨some ⟨200, some (.obj [("message", .str "Todo deleted successfully")])⟩,
          file1, [.read, .write db1]⟩
      | .error _ =>
        ⟨some ⟨500, some (errorBody "Failed to delete todo")⟩, file, [.read, .write db1]⟩

/-- The sequence of todos the handlers work on for a given state of the file, when
there is one: the `todos` array of `readDatabase`. -/
def storedTodos (file : FileState) : Option (List JVal) :=
  match todosArray (readDatabase file) with
  | .ok ts => some ts
  | .error _ => none

/-! ## Statement vocabulary -/

/-- Whether a stored element is a record whose `id` strictly equals the number `p`:
the test of the update and delete callbacks, `false` where the test throws. -/
def hasId (todo : JVal) (p : JsNumber) : Bool :=
  match idMatches todo p with
  | .ok b => b
  | .error _ => false

/-- The data-model invariant on a sequence of todos: the priority of every record,
when present, is one of `PRIORITIES`, and its category, when present, is one of
`CATEGORIES`. -/
def enumsValid (ts : List JVal) : Prop :=
  ∀ t ∈ ts,
    (∀ v, getProp t "priority" = .ok (some v) → ∃ s ∈ PRIORITIES, v = .str s) ∧
    (∀ v, getProp t "category" = .ok (some v) → ∃ s ∈ CATEGORIES, v = .str s)

/-- A sample environment: a clock reading and a write that succeeds. -/
def sampleEnv : Env := ⟨1730000000000, "2024-10-27T03:33:20.000Z", true⟩

/-- A sample backing file with three records, two of which share the id 7. -/
def sampleFile : FileState :=
  .json (.obj [("todos", .arr [
    .obj [("id", .num 5), ("text", .str "walk"), ("priority", .str "low")],
    .obj [("id", .num 7), ("text", .str "milk"), ("completed", .bool false),
          ("priority", .str "low"), ("category", .str "shopping")],
    .obj [("id", .num 7), ("text", .str "copy"), ("category", .str "work")]])])

/-- A sample backing file whose one record has the id `2 ^ 53`. -/
def bigIdFile : FileState :=
  .json (.obj [("todos", .arr [
    .obj [("id", .num 9007199254740992), ("text", .str "big")]])])

/-! ## Numbers -/

theorem excessBits_adequate (fuel m : Nat) (h : m ≤ fuel) :
    m / 2 ^ excessBits fuel m < 9007199254740992 := by
  induction fuel generalizing m with
  | zero =>
    have : m = 0 := by omega
    subst this
    simp [excessBits]
  | succ fuel ih =>
    unfold excessBits
    split
    · simpa using ‹m < 9007199254740992›
    · have h2 : m / 2 ≤ fuel := by omega
      have h3 := ih (m / 2) h2
      rw [pow_succ, Nat.mul_comm, ← Nat.div_div_eq_div_mul]
      exact h3

/-- Sample values of `parseInt`: digits up to the first character that is none, an
optional sign and hexadecimal prefix, NaN without a digit, and rounding to the nearest
double, ties to even, above `2 ^ 53`. -/
theorem parseInt_samples :
    parseInt "7" = .finite 7 ∧ parseInt " 12px" = .finite 12 ∧
    parseInt "-0x1F" = .finite (-31) ∧ parseInt "abc" = .nan ∧ parseInt "" = .nan ∧
    parseInt "9007199254740992" = .finite 9007199254740992 ∧
    parseInt "9007199254740993" = .finite 9007199254740992 ∧
    parseInt "9007199254740995" = .finite 9007199254740996 ∧
    parseInt "0x20000000000001" = .finite 9007199254740992 ∧
    parseInt "123456789012345678901234567890" = .finite 123456789012345677877719597056 := by
  decide

/-! ## Objects -/

theorem lookupKey_setProp_same (kvs : List (String × JVal)) (k : String) (v : JVal) :
    lookupKey (setProp kvs k v) k = some v := by
  induction kvs with
  | nil => simp [setProp, lookupKey]
  | cons p rest ih =>
    obtain ⟨k1, v1⟩ := p
    by_cases hk : k1 = k
    · simp [setProp, lookupKey, hk]
    · simp [setProp, lookupKey, hk, ih]

theorem lookupKey_setProp_other (kvs : List (String × JVal)) (k k2 : String) (v : JVal)
    (hne : k2 ≠ k) : lookupKey (setProp kvs k v) k2 = lookupKey kvs k2 := by
  induction kvs with
  | nil => simp [setProp, lookupKey, Ne.symm hne]
  | cons p rest ih =>
    obtain ⟨k1, v1⟩ := p
    by_cases hk : k1 = k
    · subst hk
      simp [setProp, lookupKey, Ne.symm hne]
    · simp [setProp, lookupKey, hk, ih]

theorem lookupKey_eq_none_of_not_mem (kvs : List (String × JVal)) (k : String)
    (h : k ∉ kvs.map Prod.fst) : lookupKey kvs k = none := by
  induction kvs with
  | nil => rfl
  | cons p rest ih =>
    obtain ⟨k1, v1⟩ := p
    simp only [List.map_cons, List.mem_cons, not_or] at h
    simp [lookupKey, Ne.symm h.1, ih h.2]

theorem lookupKey_foldl_setProp (src target : List (String × JVal)) (k : String)
    (hu : uniqueKeys src) :
    lookupKey (src.foldl (fun acc p => setProp acc p.1 p.2) target) k =
      match lookupKey src k with
      | some v => some v
      | none => lookupKey target k := by
  induction src generalizing target with
  | nil => simp [lookupKey]
  | cons p rest ih =>
    obtain ⟨k1, v1⟩ := p
    have hu2 : k1 ∉ rest.map Prod.fst ∧ uniqueKeys rest := by
      simpa [uniqueKeys] using hu
    rw [List.foldl_cons, ih _ hu2.2]
    by_cases hk : k1 = k
    · subst hk
      simp [lookupKey, lookupKey_eq_none_of_not_mem rest k1 hu2.1, lookupKey_setProp_same]
    · simp only [lookupKey, hk, if_false]
      rw [lookupKey_setProp_other _ _ _ _ (Ne.symm hk)]

theorem setProp_setProp_same (kvs : List (String × JVal)) (k : String) (v w : JVal) :
    setProp (setProp kvs k v) k w = setProp kvs k w := by
  induction kvs with
  | nil => simp [setProp]
  | cons p rest ih =>
    obtain ⟨k1, v1⟩ := p
    by_cases hk : k1 = k
    · simp [setProp, hk]
    · simp [setProp, hk, ih]

/-! ## Validation -/

theorem validateTodo_obj (kvs : List (String × JVal)) :
    validateTodo (.obj kvs) =
      if !truthy (lookupKey kvs "text") then
        .respond ⟨400, some (errorBody "Todo text is required")⟩
      else if truthy (lookupKey kvs "priority") &&
          !includes PRIORITIES (lookupKey kvs "priority") then
        .respond ⟨400, some (errorBody "Invalid priority. Must be one of: low, medium, high")⟩
      else if truthy (lookupKey kvs "category") &&
          !includes CATEGORIES (lookupKey kvs "category") then
        .respond ⟨400, some (errorBody
          "Invalid category. Must be one of: work, personal, shopping, health")⟩
      else .next := by
  rfl

/-! ## The document -/

theorem todosArray_eq_ok (db : JVal) (ts : List JVal) (h : todosArray db = .ok ts) :
    ∃ kvs, db = .obj kvs ∧ lookupKey kvs "todos" = some (.arr ts) := by
  cases db with
  | obj kvs =>
    refine ⟨kvs, rfl, ?_⟩
    simp only [todosArray, getProp] at h
    split at h <;> simp_all
  | _ => simp [todosArray, getProp] at h

theorem todosArray_withTodos (db : JVal) (ts ts2 : List JVal) (h : todosArray db = .ok ts) :
    todosArray (withTodos db ts2) = .ok ts2 := by
  obtain ⟨kvs, rfl, _⟩ := todosArray_eq_ok db ts h
  simp [withTodos, todosArray, getProp, lookupKey_setProp_same]

theorem storedTodos_eq_some (file : FileState) (ts : List JVal) :
    storedTodos file = some ts ↔ todosArray (readDatabase file) = .ok ts := by
  unfold storedTodos
  split <;> simp_all

theorem storedTodos_json_withTodos (db : JVal) (ts ts2 : List JVal)
    (h : todosArray db = .ok ts) : storedTodos (.json (withTodos db ts2)) = some ts2 := by
  rw [storedTodos_eq_some]
  exact todosArray_withTodos db ts ts2 h

/-! ## The callbacks -/

theorem idMatches_record (t : JVal) (p : JsNumber) (h : isRecord t) :
    idMatches t p = .ok (hasId t p) := by
  cases t <;> simp [isRecord] at h
  simp [hasId, idMatches, getProp]

theorem filterTodos_records (ts : List JVal) (p : JsNumber) (h : ∀ t ∈ ts, isRecord t) :
    filterTodos ts p = .ok (ts.filter (fun t => !hasId t p)) := by
  induction ts with
  | nil => rfl
  | cons t rest ih =>
    have h1 := idMatches_record t p (h t (List.mem_cons_self _ _))
    have h2 := ih (fun x hx => h x (List.mem_cons_of_mem _ hx))
    simp only [filterTodos, h1, h2, List.filter_cons]

theorem findIndexFrom_records (ts : List JVal) (p : JsNumber) (i : Nat)
    (h : ∀ t ∈ ts, isRecord t) :
    (findIndexFrom ts p i = .ok none ∧ ∀ t ∈ ts, hasId t p = false) ∨
    ∃ pre old post, ts = pre ++ old :: post ∧ (∀ t ∈ pre, hasId t p = false) ∧
      hasId old p = true ∧ findIndexFrom ts p i = .ok (some (i + pre.length)) := by
  induction ts generalizing i with
  | nil => left; simp [findIndexFrom]
  | cons t rest ih =>
    have h1 := idMatches_record t p (h t (List.mem_cons_self _ _))
    cases hm : hasId t p with
    | true =>
      right
      refine ⟨[], t, rest, rfl, by simp, hm, ?_⟩
      simp [findIndexFrom, h1, hm]
    | false =>
      rcases ih (i + 1) (fun x hx => h x (List.mem_cons_of_mem _ hx)) with ⟨h2, h3⟩ | ⟨pre, old, post, e, hpre, hold, hf⟩
      · left
        refine ⟨by simp [findIndexFrom, h1, hm, h2], ?_⟩
        intro x hx
        rcases List.mem_cons.1 hx with rfl | hx
        · exact hm
        · exact h3 x hx
      · right
        refine ⟨t :: pre, old, post, by simp [e], ?_, hold, ?_⟩
        · intro x hx
          rcases List.mem_cons.1 hx with rfl | hx
          · exact hm
          · exact hpre x hx
        · simp [findIndexFrom, h1, hm, hf]; omega

theorem hasId_eq_true_iff (t : JVal) (p : JsNumber) :
    hasId t p = true ↔ ∃ n, p = .finite n ∧ getProp t "id" = .ok (some (.num n)) := by
  unfold hasId idMatches
  cases hg : getProp t "id" with
  | error e => simp
  | ok v =>
    cases p with
    | nan => simp [strictEqNum]
    | infinity b => simp [strictEqNum]
    | finite n =>
      cases v with
      | none => simp [strictEqNum]
      | some w =>
        cases w <;> simp [strictEqNum]

theorem validateTodo_next_obj (body : JVal) (hv : validateTodo body = .next) :
    ∃ kvs text, body = .obj kvs ∧ lookupKey kvs "text" = some text ∧
      truthy (some text) = true ∧
      (truthy (lookupKey kvs "priority") = true →
        includes PRIORITIES (lookupKey kvs "priority") = true) ∧
      (truthy (lookupKey kvs "category") = true →
        includes CATEGORIES (lookupKey kvs "category") = true) := by
  cases body with
  | obj kvs =>
    simp only [validateTodo, getProp] at hv
    cases ht : lookupKey kvs "text" with
    | none => simp [ht, truthy] at hv
    | some text =>
      refine ⟨kvs, text, rfl, ht, ?_, ?_, ?_⟩
      · by_contra hc
        simp [ht, hc] at hv
      · intro hp
        by_contra hc
        split_ifs at hv
        simp_all
      · intro hp
        by_contra hc
        split_ifs at hv
        simp_all
  | null => simp [validateTodo, getProp] at hv
  | _ => simp [validateTodo, getProp, truthy] at hv

/-! ## Create -/

theorem orDefault_truthy (v d : JVal) (h : truthy (some v) = true) :
    orDefault (some v) d = v := by
  simp [orDefault, h]

theorem orDefault_falsy (p : Option JVal) (d : JVal) (h : truthy p = false) :
    orDefault p d = d := by
  cases p with
  | none => rfl
  | some v => simp [orDefault, h]

/-- C1 (as amended): for a body that passes `validateTodo` there is one record such that
create answers 201 with it whenever the document has a `todos` array and the write
succeeds, and every 201 answer of create carries it; its `text` is the body's text, its
`priority`, `category` and `completed` are the body's values where those are truthy
(present and not `null`, `false`, `0` or the empty string) and 'medium', 'personal' and
`false` otherwise, its `id` is `Date.now()` and its `createdAt` the ISO time. -/
theorem create_returns_record (env : Env) (file : FileState) (body : JVal)
    (hv : validateTodo body = .next) :
    ∃ rcd : JVal,
      (∀ ts, storedTodos file = some ts → env.writeOk = true →
        (createTodo env file body).res = some ⟨201, some rcd⟩) ∧
      (∀ r, (createTodo env file body).res = some r → r.status = 201 → r.body = some rcd) ∧
      getProp rcd "id" = .ok (some (.num env.nowMs)) ∧
      getProp rcd "createdAt" = .ok (some (.str env.nowIso)) ∧
      (∃ text, getProp body "text" = .ok (some text) ∧ getProp rcd "text" = .ok (some text)) ∧
      (∀ v, getProp body "priority" = .ok (some v) → truthy (some v) = true →
        getProp rcd "priority" = .ok (some v)) ∧
      (∀ p, getProp body "priority" = .ok p → truthy p = false →
        getProp rcd "priority" = .ok (some (.str "medium"))) ∧
      (∀ v, getProp body "category" = .ok (some v) → truthy (some v) = true →
        getProp rcd "category" = .ok (some v)) ∧
      (∀ p, getProp body "category" = .ok p → truthy p = false →
        getProp rcd "category" = .ok (some (.str "personal"))) ∧
      (∀ v, getProp body "completed" = .ok (some v) → truthy (some v) = true →
        getProp rcd "completed" = .ok (some v)) ∧
      (∀ p, getProp body "completed" = .ok p → truthy p = false →
        getProp rcd "completed" = .ok (some (.bool false))) := by
  obtain ⟨kvs, text, rfl, htx, -, -, -⟩ := validateTodo_next_obj body hv
  have hnew : newTodo env (.obj kvs) = .ok (.obj
      [("id", .num env.nowMs), ("text", text),
       ("completed", orDefault (lookupKey kvs "completed") (.bool false)),
       ("priority", orDefault (lookupKey kvs "priority") (.str "medium")),
       ("category", orDefault (lookupKey kvs "category") (.str "personal")),
       ("createdAt", .str env.nowIso)]) := by
    simp [newTodo, getProp, htx, jsonProp]
  refine ⟨.obj
      [("id", .num env.nowMs), ("text", text),
       ("completed", orDefault (lookupKey kvs "completed") (.bool false)),
       ("priority", orDefault (lookupKey kvs "priority") (.str "medium")),
       ("category", orDefault (lookupKey kvs "category") (.str "personal")),
       ("createdAt", .str env.nowIso)], ?_, ?_, rfl, rfl,
    ⟨text, by simp [getProp, htx], rfl⟩, ?_, ?_, ?_, ?_, ?_, ?_⟩
  · intro ts hs hw
    rw [storedTodos_eq_some] at hs
    simp [createTodo, writeDatabase, hv, hnew, hs, hw]
  · intro r hr hst
    simp only [createTodo, hv, hnew] at hr
    cases hta : todosArray (readDatabase file) with
    | error e =>
      simp only [hta, Option.some.injEq] at hr
      subst hr
      simp at hst
    | ok ts =>
      cases hw : env.writeOk with
      | false =>
        simp [hta, hw, writeDatabase] at hr
        subst hr
        simp at hst
      | true =>
        simp [hta, hw, writeDatabase] at hr
        subst hr
        rfl
  · intro v h1 h2
    simp only [getProp, Except.ok.injEq] at h1
    simp [getProp, lookupKey, h1, orDefault_truthy _ _ h2]
  · intro p h1 h2
    simp only [getProp, Except.ok.injEq] at h1
    simp [getProp, lookupKey, h1, orDefault_falsy _ _ h2]
  · intro v h1 h2
    simp only [getProp, Except.ok.injEq] at h1
    simp [getProp, lookupKey, h1, orDefault_truthy _ _ h2]
  · intro p h1 h2
    simp only [getProp, Except.ok.injEq] at h1
    simp [getProp, lookupKey, h1, orDefault_falsy _ _ h2]
  · intro v h1 h2
    simp only [getProp, Except.ok.injEq] at h1
    simp [getProp, lookupKey, h1, orDefault_truthy _ _ h2]
  · intro p h1 h2
    simp only [getProp, Except.ok.injEq] at h1
    simp [getProp, lookupKey, h1, orDefault_falsy _ _ h2]

theorem create_returns_record_witness :
    ∃ rcd, (createTodo sampleEnv .unreadable
        (.obj [("text", .str "buy milk"), ("priority", .str "high")])).res =
        some ⟨201, some rcd⟩ ∧
      getProp rcd "priority" = .ok (some (.str "high")) ∧
      getProp rcd "category" = .ok (some (.str "personal")) := by
  obtain ⟨rcd, h1, _, _, _, _, h6, _, _, h9, _⟩ :=
    create_returns_record sampleEnv .unreadable
      (.obj [("text", .str "buy milk"), ("priority", .str "high")]) rfl
  exact ⟨rcd, h1 [] rfl rfl, h6 _ rfl rfl, h9 _ rfl rfl⟩

/-- C1 fails as stated: the body `{"text":"a","completed":0,"priority":""}` passes
`validateTodo` and provides `completed` and `priority`, yet the record of the 201 answer
has `completed: false` and `priority: "medium"`, not the provided values. -/
theorem falsy_fields_take_defaults :
    validateTodo (.obj [("text", .str "a"), ("completed", .num 0), ("priority", .str "")]) =
      .next ∧
    getProp (.obj [("text", .str "a"), ("completed", .num 0), ("priority", .str "")])
      "completed" = .ok (some (.num 0)) ∧
    getProp (.obj [("text", .str "a"), ("completed", .num 0), ("priority", .str "")])
      "priority" = .ok (some (.str "")) ∧
    (createTodo sampleEnv .unreadable
      (.obj [("text", .str "a"), ("completed", .num 0), ("priority", .str "")])).res =
      some ⟨201, some (.obj [("id", .num 1730000000000), ("text", .str "a"),
        ("completed", .bool false), ("priority", .str "medium"),
        ("category", .str "personal"), ("createdAt", .str "2024-10-27T03:33:20.000Z")])⟩ ∧
    JVal.bool false ≠ JVal.num 0 ∧ JVal.str "medium" ≠ JVal.str "" := by
  refine ⟨rfl, rfl, rfl, rfl, ?_, ?_⟩
  · simp
  · simp

theorem newTodo_fields (env : Env) (kvs : List (String × JVal)) (text : JVal)
    (htx : lookupKey kvs "text" = some text) :
    ∃ rcd, newTodo env (.obj kvs) = .ok rcd ∧
      getProp rcd "id" = .ok (some (.num env.nowMs)) ∧
      getProp rcd "createdAt" = .ok (some (.str env.nowIso)) ∧
      getProp rcd "text" = .ok (some text) ∧
      getProp rcd "completed" =
        .ok (some (orDefault (lookupKey kvs "completed") (.bool false))) ∧
      getProp rcd "priority" =
        .ok (some (orDefault (lookupKey kvs "priority") (.str "medium"))) ∧
      getProp rcd "category" =
        .ok (some (orDefault (lookupKey kvs "category") (.str "personal"))) := by
  refine ⟨.obj
      [("id", .num env.nowMs), ("text", text),
       ("completed", orDefault (lookupKey kvs "completed") (.bool false)),
       ("priority", orDefault (lookupKey kvs "priority") (.str "medium")),
       ("category", orDefault (lookupKey kvs "category") (.str "personal")),
       ("createdAt", .str env.nowIso)], ?_, rfl, rfl, rfl, rfl, rfl, rfl⟩
  simp [newTodo, getProp, htx, jsonProp]

/-- C4: when the body passes `validateTodo`, listing answers 200 with the array `ts`
before the request, and the write succeeds, create answers 201 with a record and listing
right after it answers 200 with `ts`, unchanged and in order, followed by that one
record as its last element. The record is the one the server builds: its `id` is
`Date.now()`, its `createdAt` the ISO time, its `text` the body's text, and its
`completed`, `priority` and `category` the body's values where truthy and `false`,
'medium' and 'personal' otherwise. -/
theorem create_then_list (env : Env) (file : FileState) (body : JVal) (ts : List JVal)
    (hv : validateTodo body = .next)
    (hs : (listTodos file).res = some ⟨200, some (.arr ts)⟩)
    (hw : env.writeOk = true) :
    ∃ rcd, (createTodo env file body).res = some ⟨201, some rcd⟩ ∧
      (listTodos (createTodo env file body).file).res =
        some ⟨200, some (.arr (ts ++ [rcd]))⟩ ∧
      getProp rcd "id" = .ok (some (.num env.nowMs)) ∧
      getProp rcd "createdAt" = .ok (some (.str env.nowIso)) ∧
      (∃ text, getProp body "text" = .ok (some text) ∧ getProp rcd "text" = .ok (some text)) ∧
      (∀ v, getProp body "completed" = .ok (some v) → truthy (some v) = true →
        getProp rcd "completed" = .ok (some v)) ∧
      (∀ p, getProp body "completed" = .ok p → truthy p = false →
        getProp rcd "completed" = .ok (some (.bool false))) ∧
      (∀ v, getProp body "priority" = .ok (some v) → truthy (some v) = true →
        getProp rcd "priority" = .ok (some v)) ∧
      (∀ p, getProp body "priority" = .ok p → truthy p = false →
        getProp rcd "priority" = .ok (some (.str "medium"))) ∧
      (∀ v, getProp body "category" = .ok (some v) → truthy (some v) = true →
        getProp rcd "category" = .ok (some v)) ∧
      (∀ p, getProp body "category" = .ok p → truthy p = false →
        getProp rcd "category" = .ok (some (.str "personal"))) := by
  have hta : todosArray (readDatabase file) = .ok ts := by
    simp only [listTodos] at hs
    unfold todosArray
    cases hg : getProp (readDatabase file) "todos" with
    | error e => simp [hg] at hs
    | ok v =>
      simp [hg] at hs
      simp [hs]
  obtain ⟨dkvs, hdb, hlk⟩ := todosArray_eq_ok _ _ hta
  obtain ⟨kvs, text, rfl, htx, -, -, -⟩ := validateTodo_next_obj body hv
  obtain ⟨rcd, hnew, hid, hcreated, htext, hcompleted, hpriority, hcategory⟩ :=
    newTodo_fields env kvs text htx
  have hcr : createTodo env file (.obj kvs) =
      ⟨some ⟨201, some rcd⟩, .json (withTodos (readDatabase file) (ts ++ [rcd])),
        [.read, .write (withTodos (readDatabase file) (ts ++ [rcd]))]⟩ := by
    simp [createTodo, writeDatabase, hv, hnew, hta, hw]
  refine ⟨rcd, by rw [hcr], ?_, hid, hcreated, ⟨text, by simp [getProp, htx], htext⟩,
    ?_, ?_, ?_, ?_, ?_, ?_⟩
  · rw [hcr, hdb]
    simp [listTodos, readDatabase, withTodos, getProp, lookupKey_setProp_same]
  · intro v h1 h2
    simp only [getProp, Except.ok.injEq] at h1
    rw [hcompleted, h1, orDefault_truthy _ _ h2]
  · intro p h1 h2
    simp only [getProp, Except.ok.injEq] at h1
    rw [hcompleted, h1, orDefault_falsy _ _ h2]
  · intro v h1 h2
    simp only [getProp, Except.ok.injEq] at h1
    rw [hpriority, h1, orDefault_truthy _ _ h2]
  · intro p h1 h2
    simp only [getProp, Except.ok.injEq] at h1
    rw [hpriority, h1, orDefault_falsy _ _ h2]
  · intro v h1 h2
    simp only [getProp, Except.ok.injEq] at h1
    rw [hcategory, h1, orDefault_truthy _ _ h2]
  · intro p h1 h2
    simp only [getProp, Except.ok.injEq] at h1
    rw [hcategory, h1, orDefault_falsy _ _ h2]

theorem create_then_list_witness :
    ∃ rcd, (createTodo sampleEnv sampleFile (.obj [("text", .str "buy milk")])).res =
        some ⟨201, some rcd⟩ ∧
      (listTodos (createTodo sampleEnv sampleFile (.obj [("text", .str "buy milk")])).file).res =
        some ⟨200, some (.arr ([
          .obj [("id", .num 5), ("text", .str "walk"), ("priority", .str "low")],
          .obj [("id", .num 7), ("text", .str "milk"), ("completed", .bool false),
                ("priority", .str "low"), ("category", .str "shopping")],
          .obj [("id", .num 7), ("text", .str "copy"), ("category", .str "work")]] ++ [rcd]))⟩ ∧
      getProp rcd "id" = .ok (some (.num 1730000000000)) ∧
      getProp rcd "createdAt" = .ok (some (.str "2024-10-27T03:33:20.000Z")) ∧
      getProp rcd "text" = .ok (some (.str "buy milk")) ∧
      getProp rcd "completed" = .ok (some (.bool false)) ∧
      getProp rcd "priority" = .ok (some (.str "medium")) ∧
      getProp rcd "category" = .ok (some (.str "personal")) := by
  obtain ⟨rcd, h1, h2, h3, h4, ⟨text, h5, h6⟩, -, h8, -, h10, -, h12⟩ :=
    create_then_list sampleEnv sampleFile (.obj [("text", .str "buy milk")]) _ rfl rfl rfl
  cases h5
  exact ⟨rcd, h1, h2, h3, h4, h6, h8 none rfl rfl, h10 none rfl rfl, h12 none rfl rfl⟩

/-! ## Validation of create and update -/

/-- C5: an update whose body has no `text`, or the empty string as `text`, is answered
400 'Todo text is required' for every path id and every state of the backing file,
and the file is neither read nor written. -/
theorem update_rejects_missing_text (env : Env) (file : FileState) (pathId : String)
    (body : JVal)
    (h : getProp body "text" = .ok none ∨ getProp body "text" = .ok (some (.str ""))) :
    updateTodo env file pathId body =
      ⟨some ⟨400, some (errorBody "Todo text is required")⟩, file, []⟩ := by
  cases body <;> simp [getProp] at h <;> simp [updateTodo, validateTodo, getProp, truthy]
  rcases h with h | h <;> simp [h, truthy]

theorem update_rejects_missing_text_witness :
    updateTodo sampleEnv sampleFile "7" (.obj [("completed", .bool true)]) =
      ⟨some ⟨400, some (errorBody "Todo text is required")⟩, sampleFile, []⟩ ∧
    updateTodo sampleEnv sampleFile "7" (.obj [("text", .str ""), ("completed", .bool true)]) =
      ⟨some ⟨400, some (errorBody "Todo text is required")⟩, sampleFile, []⟩ :=
  ⟨update_rejects_missing_text sampleEnv sampleFile "7" (.obj [("completed", .bool true)])
      (Or.inl rfl),
   update_rejects_missing_text sampleEnv sampleFile "7"
      (.obj [("text", .str ""), ("completed", .bool true)]) (Or.inr rfl)⟩

theorem includes_eq_false_of_not_mem (xs : List String) (v : Option JVal)
    (h : ∀ s ∈ xs, v ≠ some (.str s)) : includes xs v = false := by
  unfold includes
  split
  · rename_i s
    simp only [List.contains_eq_any_beq, List.any_eq_false, beq_iff_eq]
    intro x hx he
    exact h x hx (by rw [he])
  · rfl

/-- C6 (as amended): for a create or update whose body has a truthy `text`, a `priority`
that is truthy (present and not `null`, `false`, `0` or the empty string) and is not one
of the strings low, medium, high is answered 400 with the message listing them; otherwise
a `category` that is truthy and is not one of work, personal, shopping, health is
answered 400 with the message listing those; in both cases the backing file is not
accessed and keeps its state. -/
theorem enumerated_field_rejection (env : Env) (file : FileState) (pathId : String)
    (body : JVal) (text pr cat : Option JVal)
    (ht : getProp body "text" = .ok text) (htt : truthy text = true)
    (hp : getProp body "priority" = .ok pr) (hc : getProp body "category" = .ok cat) :
    (truthy pr = true → (∀ s ∈ PRIORITIES, pr ≠ some (.str s)) →
      createTodo env file body =
        ⟨some ⟨400, some (errorBody "Invalid priority. Must be one of: low, medium, high")⟩,
          file, []⟩ ∧
      updateTodo env file pathId body =
        ⟨some ⟨400, some (errorBody "Invalid priority. Must be one of: low, medium, high")⟩,
          file, []⟩) ∧
    (¬ (truthy pr = true ∧ ∀ s ∈ PRIORITIES, pr ≠ some (.str s)) →
      truthy cat = true → (∀ s ∈ CATEGORIES, cat ≠ some (.str s)) →
      createTodo env file body =
        ⟨some ⟨400, some (errorBody
          "Invalid category. Must be one of: work, personal, shopping, health")⟩, file, []⟩ ∧
      updateTodo env file pathId body =
        ⟨some ⟨400, some (errorBody
          "Invalid category. Must be one of: work, personal, shopping, health")⟩, file, []⟩) := by
  cases body with
  | obj kvs =>
    simp only [getProp, Except.ok.injEq] at ht hp hc
    subst ht hp hc
    constructor
    · intro h1 h2
      have h3 := includes_eq_false_of_not_mem _ _ h2
      simp [createTodo, updateTodo, validateTodo_obj, htt, h1, h3]
    · intro h1 h2 h3
      have h4 := includes_eq_false_of_not_mem _ _ h3
      have h5 : (truthy (lookupKey kvs "priority") &&
          !includes PRIORITIES (lookupKey kvs "priority")) = false := by
        by_contra hx
        simp only [Bool.not_eq_false, Bool.and_eq_true, Bool.not_eq_eq_eq_not, Bool.not_true] at hx
        apply h1
        refine ⟨hx.1, ?_⟩
        intro s hs he
        have := hx.2
        rw [he] at this
        simp [includes, hs] at this
      simp [createTodo, updateTodo, validateTodo_obj, htt, h5, h2, h4]
  | null => simp [getProp] at ht
  | _ =>
    simp only [getProp, Except.ok.injEq] at ht
    subst ht
    simp [truthy] at htt

theorem enumerated_field_rejection_witness :
    (createTodo sampleEnv sampleFile
        (.obj [("text", .str "a"), ("priority", .str "urgent")]) =
      ⟨some ⟨400, some (errorBody "Invalid priority. Must be one of: low, medium, high")⟩,
        sampleFile, []⟩ ∧
    updateTodo sampleEnv sampleFile "7"
        (.obj [("text", .str "a"), ("priority", .str "urgent")]) =
      ⟨some ⟨400, some (errorBody "Invalid priority. Must be one of: low, medium, high")⟩,
        sampleFile, []⟩) ∧
    (createTodo sampleEnv sampleFile
        (.obj [("text", .str "a"), ("category", .str "misc")]) =
      ⟨some ⟨400, some (errorBody
        "Invalid category. Must be one of: work, personal, shopping, health")⟩,
        sampleFile, []⟩ ∧
    updateTodo sampleEnv sampleFile "7"
        (.obj [("text", .str "a"), ("category", .str "misc")]) =
      ⟨some ⟨400, some (errorBody
        "Invalid category. Must be one of: work, personal, shopping, health")⟩,
        sampleFile, []⟩) :=
  ⟨(enumerated_field_rejection sampleEnv sampleFile "7"
      (.obj [("text", .str "a"), ("priority", .str "urgent")])
      (some (.str "a")) (some (.str "urgent")) none rfl rfl rfl rfl).1 rfl
      (by simp [PRIORITIES]),
   (enumerated_field_rejection sampleEnv sampleFile "7"
      (.obj [("text", .str "a"), ("category", .str "misc")])
      (some (.str "a")) none (some (.str "misc")) rfl rfl rfl rfl).2 (by simp [truthy]) rfl
      (by simp [CATEGORIES])⟩

/-- C6 fails as stated: the body `{"text":"a","priority":""}` has a non-empty text and a
priority that is present and is not one of low, medium, high, yet create answers 201 and
update answers 200 instead of 400. -/
theorem empty_priority_is_not_rejected :
    getProp (.obj [("text", .str "a"), ("priority", .str "")]) "priority" = .ok (some (.str "")) ∧
    "" ∉ PRIORITIES ∧
    ((createTodo sampleEnv sampleFile
        (.obj [("text", .str "a"), ("priority", .str "")])).res.map Response.status) = some 201 ∧
    ((updateTodo sampleEnv sampleFile "7"
        (.obj [("text", .str "a"), ("priority", .str "")])).res.map Response.status) = some 200 :=
  ⟨rfl, by decide, rfl, rfl⟩

/-! ## Update -/

/-- C7: for a body that passes `validateTodo` and a stored sequence of records none of
whose ids strictly equals `parseInt` of the path id (in particular when `parseInt` yields
NaN), update answers 404 'Todo not found', reads the file once, writes nothing and leaves
the file as it was. -/
theorem update_unknown_id_not_found (env : Env) (file : FileState) (pathId : String)
    (body : JVal) (ts : List JVal)
    (hv : validateTodo body = .next)
    (hs : storedTodos file = some ts) (hr : ∀ t ∈ ts, isRecord t)
    (hn : parseInt pathId = .nan ∨
      ∀ t ∈ ts, ∀ n, parseInt pathId = .finite n → getProp t "id" ≠ .ok (some (.num n))) :
    updateTodo env file pathId body =
      ⟨some ⟨404, some (errorBody "Todo not found")⟩, file, [.read]⟩ := by
  rw [storedTodos_eq_some] at hs
  have hno : ∀ t ∈ ts, hasId t (parseInt pathId) = false := by
    intro t ht
    by_contra hc
    have hc2 : hasId t (parseInt pathId) = true := by simpa using hc
    obtain ⟨n, hp, hg⟩ := (hasId_eq_true_iff t _).1 hc2
    rcases hn with hn | hn
    · rw [hn] at hp; cases hp
    · exact hn t ht n hp hg
  rcases findIndexFrom_records ts (parseInt pathId) 0 hr with ⟨hf, -⟩ | ⟨pre, old, post, e, -, hold, -⟩
  · simp [updateTodo, hv, hs, hf]
  · have := hno old (by simp [e])
    rw [hold] at this
    cases this

theorem update_unknown_id_not_found_witness :
    updateTodo sampleEnv sampleFile "abc" (.obj [("text", .str "milk")]) =
      ⟨some ⟨404, some (errorBody "Todo not found")⟩, sampleFile, [.read]⟩ ∧
    updateTodo sampleEnv bigIdFile "9007199254740994" (.obj [("text", .str "big")]) =
      ⟨some ⟨404, some (errorBody "Todo not found")⟩, bigIdFile, [.read]⟩ :=
  ⟨update_unknown_id_not_found sampleEnv sampleFile "abc" (.obj [("text", .str "milk")]) _
    rfl rfl (by decide) (Or.inl (by decide)),
   update_unknown_id_not_found sampleEnv bigIdFile "9007199254740994"
    (.obj [("text", .str "big")]) _ rfl rfl (by decide) (Or.inr (by
      intro t ht n hp
      have hq : parseInt "9007199254740994" = .finite 9007199254740994 := by decide
      rw [hq] at hp
      cases hp
      simp only [List.mem_singleton] at ht
      subst ht
      simp [getProp, lookupKey]))⟩

theorem mergeTodo_lookup (okvs bkvs : List (String × JVal)) (iso : String)
    (ho : uniqueKeys okvs) (hb : uniqueKeys bkvs) :
    ∃ mkvs, mergeTodo (some (.obj okvs)) (.obj bkvs) iso = .obj mkvs ∧
      lookupKey mkvs "updatedAt" = some (.str iso) ∧
      ∀ k, k ≠ "updatedAt" →
        lookupKey mkvs k =
          match lookupKey bkvs k with
          | some v => some v
          | none => lookupKey okvs k := by
  refine ⟨_, rfl, lookupKey_setProp_same _ _ _, ?_⟩
  intro k hk
  rw [lookupKey_setProp_other _ _ _ _ hk]
  simp only [spreadInto, ownProps]
  rw [lookupKey_foldl_setProp bkvs _ k hb, lookupKey_foldl_setProp okvs _ k ho]
  cases lookupKey bkvs k with
  | some v => rfl
  | none =>
    cases lookupKey okvs k with
    | some w => rfl
    | none => rfl

/-- C2: for a stored sequence of records, a body that is a JSON object passing
`validateTodo`, a path id whose `parseInt` is the id of a stored record, and a write
that succeeds, update answers 200 with the merged record and the stored sequence becomes
the old one with only the first record of that id replaced by the merged record (same
length and order, every other record kept, later records of the same id included); in the
merged record `updatedAt` is the current ISO time, every other field present in the body
has the body's value, and every other field absent from the body has the value of the
old record. -/
theorem update_merges_first_match (env : Env) (file : FileState) (pathId : String)
    (body : JVal) (ts : List JVal) (n : Int)
    (hv : validateTodo body = .next) (hb : isRecord body)
    (hs : storedTodos file = some ts) (hr : ∀ t ∈ ts, isRecord t)
    (hp : parseInt pathId = .finite n)
    (hm : ∃ t ∈ ts, getProp t "id" = .ok (some (.num n)))
    (hw : env.writeOk = true) :
    ∃ pre old post merged,
      ts = pre ++ old :: post ∧
      (∀ t ∈ pre, getProp t "id" ≠ .ok (some (.num n))) ∧
      getProp old "id" = .ok (some (.num n)) ∧
      (updateTodo env file pathId body).res = some ⟨200, some merged⟩ ∧
      storedTodos (updateTodo env file pathId body).file = some (pre ++ merged :: post) ∧
      getProp merged "updatedAt" = .ok (some (.str env.nowIso)) ∧
      (∀ k v, k ≠ "updatedAt" → getProp body k = .ok (some v) →
        getProp merged k = .ok (some v)) ∧
      (∀ k, k ≠ "updatedAt" → getProp body k = .ok none →
        getProp merged k = getProp old k) := by
  have hta := (storedTodos_eq_some file ts).1 hs
  rcases findIndexFrom_records ts (.finite n) 0 hr with
    ⟨-, hno⟩ | ⟨pre, old, post, e, hpre, hold, hf⟩
  · obtain ⟨t, ht, hg⟩ := hm
    have h1 := hno t ht
    have h2 := (hasId_eq_true_iff t (.finite n)).2 ⟨n, rfl, hg⟩
    rw [h1] at h2
    cases h2
  · have hro : isRecord old := hr old (by simp [e])
    cases old with
    | obj okvs =>
      cases body with
      | obj bkvs =>
        obtain ⟨mkvs, hmerge, hup, hrest⟩ :=
          mergeTodo_lookup okvs bkvs env.nowIso hro hb
        have hget : ts[0 + pre.length]? = some (JVal.obj okvs) := by
          rw [e, Nat.zero_add, List.getElem?_append_right (Nat.le_refl _)]
          simp
        have hset : ts.set (0 + pre.length) (JVal.obj mkvs) = pre ++ JVal.obj mkvs :: post := by
          simp [e]
        have hupd : updateTodo env file pathId (.obj bkvs) =
            ⟨some ⟨200, some (.obj mkvs)⟩,
              .json (withTodos (readDatabase file) (pre ++ JVal.obj mkvs :: post)),
              [.read, .write (withTodos (readDatabase file) (pre ++ JVal.obj mkvs :: post))]⟩ := by
          simp only [updateTodo, writeDatabase, hv, hta, hp, hf, hw, hget, hmerge, hset, if_true]
        refine ⟨pre, .obj okvs, post, .obj mkvs, e, ?_, ?_, by rw [hupd], ?_, ?_, ?_, ?_⟩
        · intro t ht hg
          have h1 := hpre t ht
          have h2 := (hasId_eq_true_iff t (.finite n)).2 ⟨n, rfl, hg⟩
          rw [h1] at h2
          cases h2
        · obtain ⟨m, hm1, hm2⟩ := (hasId_eq_true_iff _ (.finite n)).1 hold
          cases hm1
          exact hm2
        · rw [hupd]
          exact storedTodos_json_withTodos _ ts _ hta
        · simp [getProp, hup]
        · intro k v hk hg
          simp only [getProp, Except.ok.injEq] at hg
          simp [getProp, hrest k hk, hg]
        · intro k hk hg
          simp only [getProp, Except.ok.injEq] at hg
          simp [getProp, hrest k hk, hg]
      | _ => simp [isRecord] at hb
    | _ => simp [isRecord] at hro

theorem update_merges_first_match_witness :
    ∃ pre old post merged,
      [JVal.obj [("id", .num 5), ("text", .str "walk"), ("priority", .str "low")],
       JVal.obj [("id", .num 7), ("text", .str "milk"), ("completed", .bool false),
          ("priority", .str "low"), ("category", .str "shopping")],
       JVal.obj [("id", .num 7), ("text", .str "copy"), ("category", .str "work")]] =
        pre ++ old :: post ∧
      (∀ t ∈ pre, getProp t "id" ≠ .ok (some (.num 7))) ∧
      getProp old "id" = .ok (some (.num 7)) ∧
      (updateTodo sampleEnv sampleFile "7"
        (.obj [("text", .str "milk"), ("completed", .bool true)])).res =
        some ⟨200, some merged⟩ ∧
      storedTodos (updateTodo sampleEnv sampleFile "7"
        (.obj [("text", .str "milk"), ("completed", .bool true)])).file =
        some (pre ++ merged :: post) ∧
      getProp merged "updatedAt" = .ok (some (.str sampleEnv.nowIso)) ∧
      (∀ k v, k ≠ "updatedAt" →
        getProp (.obj [("text", .str "milk"), ("completed", .bool true)]) k = .ok (some v) →
        getProp merged k = .ok (some v)) ∧
      (∀ k, k ≠ "updatedAt" →
        getProp (.obj [("text", .str "milk"), ("completed", .bool true)]) k = .ok none →
        getProp merged k = getProp old k) :=
  update_merges_first_match sampleEnv sampleFile "7"
    (.obj [("text", .str "milk"), ("completed", .bool true)]) _ 7 rfl (by decide) rfl
    (by decide) (by decide)
    ⟨.obj [("id", .num 7), ("text", .str "copy"), ("category", .str "work")], by simp, rfl⟩ rfl

theorem includes_eq_true (xs : List String) (v : Option JVal) (h : includes xs v = true) :
    ∃ s ∈ xs, v = some (.str s) := by
  unfold includes at h
  split at h
  · rename_i s
    refine ⟨s, ?_, rfl⟩
    simpa using h
  · cases h

theorem orDefault_enum (xs : List String) (p : Option JVal) (d : String) (hd : d ∈ xs)
    (h : truthy p = true → includes xs p = true) :
    ∃ s ∈ xs, orDefault p (.str d) = .str s := by
  cases ht : truthy p with
  | false => exact ⟨d, hd, orDefault_falsy p _ ht⟩
  | true =>
    obtain ⟨s, hs, rfl⟩ := includes_eq_true xs p (h ht)
    exact ⟨s, hs, orDefault_truthy _ _ ht⟩

/-- The create path keeps the data-model invariant: whatever the body, the clock and the
outcome of the write, if the stored sequence satisfies `enumsValid` before `POST /todos`
it does so afterwards. -/
theorem create_keeps_enumsValid (env : Env) (file : FileState) (body : JVal)
    (ts ts2 : List JVal)
    (hs : storedTodos file = some ts) (hi : enumsValid ts)
    (h2 : storedTodos (createTodo env file body).file = some ts2) : enumsValid ts2 := by
  have hsame : (createTodo env file body).file = file → enumsValid ts2 := by
    intro he
    rw [he, hs] at h2
    cases h2
    exact hi
  cases hv : validateTodo body with
  | throws => exact hsame (by simp [createTodo, hv])
  | respond r => exact hsame (by simp [createTodo, hv])
  | next =>
    obtain ⟨kvs, text, rfl, htx, -, hpr, hcat⟩ := validateTodo_next_obj body hv
    have hta := (storedTodos_eq_some file ts).1 hs
    have hnew : newTodo env (.obj kvs) = .ok (.obj
        [("id", .num env.nowMs), ("text", text),
         ("completed", orDefault (lookupKey kvs "completed") (.bool false)),
         ("priority", orDefault (lookupKey kvs "priority") (.str "medium")),
         ("category", orDefault (lookupKey kvs "category") (.str "personal")),
         ("createdAt", .str env.nowIso)]) := by
      simp [newTodo, getProp, htx, jsonProp]
    cases hw : env.writeOk with
    | false => exact hsame (by simp [createTodo, writeDatabase, hv, hnew, hta, hw])
    | true =>
      have hfile : (createTodo env file (.obj kvs)).file = .json (withTodos (readDatabase file)
          (ts ++ [.obj
            [("id", .num env.nowMs), ("text", text),
             ("completed", orDefault (lookupKey kvs "completed") (.bool false)),
             ("priority", orDefault (lookupKey kvs "priority") (.str "medium")),
             ("category", orDefault (lookupKey kvs "category") (.str "personal")),
             ("createdAt", .str env.nowIso)]])) := by
        simp [createTodo, writeDatabase, hv, hnew, hta, hw]
      rw [hfile, storedTodos_json_withTodos _ ts _ hta] at h2
      cases h2
      intro t ht
      rcases List.mem_append.1 ht with ht | ht
      · exact hi t ht
      · rw [List.mem_singleton] at ht
        subst ht
        obtain ⟨s1, hs1, e1⟩ := orDefault_enum PRIORITIES (lookupKey kvs "priority") "medium"
          (by decide) hpr
        obtain ⟨s2, hs2, e2⟩ := orDefault_enum CATEGORIES (lookupKey kvs "category") "personal"
          (by decide) hcat
        constructor
        · intro v hv2
          simp [getProp, lookupKey, e1] at hv2
          exact ⟨s1, hs1, hv2.symm⟩
        · intro v hv2
          simp [getProp, lookupKey, e2] at hv2
          exact ⟨s2, hs2, hv2.symm⟩

/-- C9 is broken by update: on a stored sequence that satisfies the data-model invariant,
`PUT /todos/5` with the body `{"text":"walk","priority":""}` passes `validateTodo`,
answers 200 and stores the record with `priority: ""`, which is present and is not one of
low, medium, high, so the stored sequence no longer satisfies the invariant. -/
theorem update_stores_invalid_priority :
    storedTodos sampleFile = some [
      .obj [("id", .num 5), ("text", .str "walk"), ("priority", .str "low")],
      .obj [("id", .num 7), ("text", .str "milk"), ("completed", .bool false),
            ("priority", .str "low"), ("category", .str "shopping")],
      .obj [("id", .num 7), ("text", .str "copy"), ("category", .str "work")]] ∧
    enumsValid [
      .obj [("id", .num 5), ("text", .str "walk"), ("priority", .str "low")],
      .obj [("id", .num 7), ("text", .str "milk"), ("completed", .bool false),
            ("priority", .str "low"), ("category", .str "shopping")],
      .obj [("id", .num 7), ("text", .str "copy"), ("category", .str "work")]] ∧
    validateTodo (.obj [("text", .str "walk"), ("priority", .str "")]) = .next ∧
    (updateTodo sampleEnv sampleFile "5"
      (.obj [("text", .str "walk"), ("priority", .str "")])).res =
      some ⟨200, some (.obj [("id", .num 5), ("text", .str "walk"), ("priority", .str ""),
        ("updatedAt", .str "2024-10-27T03:33:20.000Z")])⟩ ∧
    storedTodos (updateTodo sampleEnv sampleFile "5"
      (.obj [("text", .str "walk"), ("priority", .str "")])).file = some [
      .obj [("id", .num 5), ("text", .str "walk"), ("priority", .str ""),
            ("updatedAt", .str "2024-10-27T03:33:20.000Z")],
      .obj [("id", .num 7), ("text", .str "milk"), ("completed", .bool false),
            ("priority", .str "low"), ("category", .str "shopping")],
      .obj [("id", .num 7), ("text", .str "copy"), ("category", .str "work")]] ∧
    ¬ enumsValid [
      .obj [("id", .num 5), ("text", .str "walk"), ("priority", .str ""),
            ("updatedAt", .str "2024-10-27T03:33:20.000Z")],
      .obj [("id", .num 7), ("text", .str "milk"), ("completed", .bool false),
            ("priority", .str "low"), ("category", .str "shopping")],
      .obj [("id", .num 7), ("text", .str "copy"), ("category", .str "work")]] := by
  refine ⟨rfl, ?_, rfl, rfl, rfl, ?_⟩
  · intro t ht
    simp only [List.mem_cons, List.mem_singleton, List.not_mem_nil, or_false] at ht
    rcases ht with rfl | rfl | rfl <;>
      simp [getProp, lookupKey, PRIORITIES, CATEGORIES]
  · intro h
    have h1 := (h _ (List.mem_cons_self _ _)).1 (.str "") rfl
    simp [PRIORITIES] at h1

/-! ## Delete -/

theorem deleteTodo_records (env : Env) (file : FileState) (pathId : String) (ts : List JVal)
    (hs : storedTodos file = some ts) (hr : ∀ t ∈ ts, isRecord t) (hw : env.writeOk = true) :
    deleteTodo env file pathId =
      ⟨some ⟨200, some (.obj [("message", .str "Todo deleted successfully")])⟩,
        .json (withTodos (readDatabase file) (ts.filter (fun t => !hasId t (parseInt pathId)))),
        [.read, .write
          (withTodos (readDatabase file) (ts.filter (fun t => !hasId t (parseInt pathId))))]⟩ := by
  rw [storedTodos_eq_some] at hs
  simp [deleteTodo, writeDatabase, hs, filterTodos_records ts _ hr, hw]

theorem hasId_eq_false_of_no_match (t : JVal) (p : JsNumber)
    (h : p = .nan ∨ ∀ n, p = .finite n → getProp t "id" ≠ .ok (some (.num n))) :
    hasId t p = false := by
  by_contra hc
  have hc2 : hasId t p = true := by simpa using hc
  obtain ⟨n, hp, hg⟩ := (hasId_eq_true_iff t p).1 hc2
  rcases h with h | h
  · rw [h] at hp; cases hp
  · exact h n hp hg

/-- C3: for a stored sequence of records and a write that succeeds, the sequence stored
after delete is the old sequence restricted, in order, to the records whose id does not
strictly equal `parseInt` of the path id; no record with that id is left, whether it was
the first with that id or a later one. -/
theorem delete_removes_every_match (env : Env) (file : FileState) (pathId : String)
    (ts : List JVal)
    (hs : storedTodos file = some ts) (hr : ∀ t ∈ ts, isRecord t) (hw : env.writeOk = true) :
    storedTodos (deleteTodo env file pathId).file =
      some (ts.filter (fun t => !hasId t (parseInt pathId))) ∧
    (∀ t ∈ ts.filter (fun t => !hasId t (parseInt pathId)),
      ∀ n, parseInt pathId = .finite n → getProp t "id" ≠ .ok (some (.num n))) ∧
    (∀ t ∈ ts, (∀ n, parseInt pathId = .finite n → getProp t "id" ≠ .ok (some (.num n))) →
      t ∈ ts.filter (fun t => !hasId t (parseInt pathId))) := by
  refine ⟨?_, ?_, ?_⟩
  · rw [deleteTodo_records env file pathId ts hs hr hw]
    rw [storedTodos_eq_some] at hs
    exact storedTodos_json_withTodos _ ts _ hs
  · intro t ht n hp hg
    have h1 := (List.mem_filter.1 ht).2
    have h2 := (hasId_eq_true_iff t (parseInt pathId)).2 ⟨n, hp, hg⟩
    simp [h2] at h1
  · intro t ht hne
    refine List.mem_filter.2 ⟨ht, ?_⟩
    simp [hasId_eq_false_of_no_match t _ (Or.inr hne)]

theorem delete_removes_every_match_witness :
    storedTodos (deleteTodo sampleEnv sampleFile "7").file =
      some [.obj [("id", .num 5), ("text", .str "walk"), ("priority", .str "low")]] ∧
    storedTodos (deleteTodo sampleEnv bigIdFile "9007199254740993").file = some [] :=
  ⟨(delete_removes_every_match sampleEnv sampleFile "7" _ rfl (by decide) rfl).1,
   (delete_removes_every_match sampleEnv bigIdFile "9007199254740993" _ rfl (by decide) rfl).1⟩

/-- A path id above `2 ^ 53` is compared after rounding: `9007199254740993` parses to the
double `9007199254740992`, so update finds the record with that id and answers 200, and
delete removes it. -/
theorem rounded_path_id_matches :
    (updateTodo sampleEnv bigIdFile "9007199254740993" (.obj [("text", .str "big")])).res =
      some ⟨200, some (.obj [("id", .num 9007199254740992), ("text", .str "big"),
        ("updatedAt", .str "2024-10-27T03:33:20.000Z")])⟩ ∧
    (deleteTodo sampleEnv bigIdFile "9007199254740993").file =
      .json (.obj [("todos", .arr [])]) :=
  ⟨rfl, rfl⟩

/-- C8: for a stored sequence of records and writes that succeed, delete answers 200 with
`{message: 'Todo deleted successfully'}` whether or not a record has the id; when no
record has it (in particular when `parseInt` of the path id is NaN) the stored sequence
is unchanged; and a second delete of the same id gives the same answer and leaves the
file exactly as the first one left it. -/
theorem delete_idempotent (env env2 : Env) (file : FileState) (pathId : String)
    (ts : List JVal)
    (hs : storedTodos file = some ts) (hr : ∀ t ∈ ts, isRecord t)
    (hw : env.writeOk = true) (hw2 : env2.writeOk = true) :
    (deleteTodo env file pathId).res =
      some ⟨200, some (.obj [("message", .str "Todo deleted successfully")])⟩ ∧
    ((parseInt pathId = .nan ∨
        ∀ t ∈ ts, ∀ n, parseInt pathId = .finite n → getProp t "id" ≠ .ok (some (.num n))) →
      storedTodos (deleteTodo env file pathId).file = some ts) ∧
    (deleteTodo env2 (deleteTodo env file pathId).file pathId).res =
      some ⟨200, some (.obj [("message", .str "Todo deleted successfully")])⟩ ∧
    (deleteTodo env2 (deleteTodo env file pathId).file pathId).file =
      (deleteTodo env file pathId).file ∧
    storedTodos (deleteTodo env2 (deleteTodo env file pathId).file pathId).file =
      storedTodos (deleteTodo env file pathId).file := by
  have h1 := deleteTodo_records env file pathId ts hs hr hw
  have hta := (storedTodos_eq_some file ts).1 hs
  have hs1 : storedTodos (deleteTodo env file pathId).file =
      some (ts.filter (fun t => !hasId t (parseInt pathId))) := by
    rw [h1]
    exact storedTodos_json_withTodos _ ts _ hta
  have hr1 : ∀ t ∈ ts.filter (fun t => !hasId t (parseInt pathId)), isRecord t :=
    fun t ht => hr t (List.mem_filter.1 ht).1
  have h2 := deleteTodo_records env2 _ pathId _ hs1 hr1 hw2
  have hfile : (deleteTodo env2 (deleteTodo env file pathId).file pathId).file =
      (deleteTodo env file pathId).file := by
    obtain ⟨dkvs, hdb, -⟩ := todosArray_eq_ok _ _ hta
    rw [h2, h1, hdb]
    simp [readDatabase, withTodos, setProp_setProp_same, List.filter_filter]
  refine ⟨by rw [h1], ?_, by rw [h2], hfile, by rw [hfile]⟩
  intro hn
  rw [hs1]
  congr 1
  rw [List.filter_eq_self]
  intro t ht
  have : hasId t (parseInt pathId) = false := by
    apply hasId_eq_false_of_no_match
    rcases hn with hn | hn
    · exact Or.inl hn
    · exact Or.inr (hn t ht)
  simp [this]

theorem delete_idempotent_witness :
    (deleteTodo sampleEnv sampleFile "abc").res =
      some ⟨200, some (.obj [("message", .str "Todo deleted successfully")])⟩ ∧
    storedTodos (deleteTodo sampleEnv sampleFile "abc").file = storedTodos sampleFile ∧
    (deleteTodo sampleEnv (deleteTodo sampleEnv sampleFile "7").file "7").file =
      (deleteTodo sampleEnv sampleFile "7").file :=
  ⟨(delete_idempotent sampleEnv sampleEnv sampleFile "abc" _ rfl (by decide) rfl rfl).1,
   (delete_idempotent sampleEnv sampleEnv sampleFile "abc" _ rfl (by decide) rfl rfl).2.1
     (Or.inl (by decide)),
   (delete_idempotent sampleEnv sampleEnv sampleFile "7" _ rfl (by decide) rfl rfl).2.2.2.1⟩

/-! ## List -/

/-- C10 (as amended): listing answers 200 with the empty sequence when the backing file
cannot be read or is not JSON, and 200 with the `todos` value of the document as it
is when the file holds a JSON object; it reads the file once and never writes. -/
theorem list_reads_or_defaults :
    listTodos .unreadable = ⟨some ⟨200, some (.arr [])⟩, .unreadable, [.read]⟩ ∧
    listTodos .malformed = ⟨some ⟨200, some (.arr [])⟩, .malformed, [.read]⟩ ∧
    ∀ kvs : List (String × JVal),
      listTodos (.json (.obj kvs)) =
        ⟨some ⟨200, lookupKey kvs "todos"⟩, .json (.obj kvs), [.read]⟩ :=
  ⟨rfl, rfl, fun _ => rfl⟩

/-- C10 fails as stated: with the backing file missing or unreadable, and with a file that
is not JSON, listing answers 200 with an empty array, not 500 'Failed to read todos'. -/
theorem list_read_failure_is_not_500 :
    (listTodos .unreadable).res = some ⟨200, some (.arr [])⟩ ∧
    (listTodos .malformed).res = some ⟨200, some (.arr [])⟩ ∧
    (listTodos .unreadable).res ≠ some ⟨500, some (errorBody "Failed to read todos")⟩ ∧
    (listTodos .malformed).res ≠ some ⟨500, some (errorBody "Failed to read todos")⟩ := by
  refine ⟨rfl, rfl, ?_, ?_⟩ <;> simp [listTodos, readDatabase, getProp, lookupKey]

end TodoBackend
